import Mathlib

/-!
Verification of the KenyaClaw agent message bus and task-routing
orchestrator.  The definitions below are a shallow embedding of the
JavaScript source (`src/swarm/message-bus.js`, `src/swarm/base-agent.js`,
`src/swarm/orchestrator.js`):

* machine numbers are modelled as `Nat` / `ℚ` (scores and ratios are exact
  rationals; the JS code uses IEEE doubles, and every concrete value used
  in a theorem below is exactly representable as a double);
* the process-wide keyed hash (`crypto.createHmac` over the JSON of the
  signed fields) is modelled as an arbitrary function `hmac` out of the
  signed-field record; collision resistance is the hypothesis that `hmac`
  is injective.  `JSON.stringify` of the five-field record is injective on
  the modelled field values, so the record itself stands for the
  serialized string;
* fallible JS code (a rejected promise / a thrown exception) is modelled
  with `Except String`;
* an agent's reply to a `query` is supplied by an oracle function: the
  strategies are verified for every possible oracle, which covers every
  reply or failure an agent could produce.
-/

namespace KenyaClaw

/-! ## Envelope (`Message` in `src/swarm/message-bus.js`)

`Message.sign()` serializes `{id, timestamp, sender, type, payload}` and
feeds it to the keyed hash.  `SignedFields` is that record; the timestamp
is epoch milliseconds (the ISO rendering used by the source is a bijective
encoding of it), and the payload is modelled as its serialized form. -/

structure SignedFields where
  id : String
  timestamp : Nat
  sender : String
  type : String
  payload : String
deriving DecidableEq, Repr

/-- The recipient spec of an envelope: a single id, an explicit list, or
the literal string `"broadcast"` (`MessageBus.send` checks the literal
first, then `Array.isArray`). -/
inductive Recipients where
  | single (id : String)
  | several (ids : List String)
  | broadcast
deriving DecidableEq, Repr

/-- An envelope.  `σ` is the signature type (a hex digest string in the
source; kept abstract so that the keyed hash can be modelled as an
arbitrary function into `σ`). -/
structure Msg (σ : Type) where
  id : String
  timestamp : Nat
  sender : String
  recipients : Recipients
  type : String
  payload : String
  priority : Nat
  ttl : Nat
  signature : σ
deriving DecidableEq, Repr

/-- The signed-field record of an envelope (`Message.sign`'s serialized
object). -/
def signedFields {σ : Type} (m : Msg σ) : SignedFields :=
  { id := m.id, timestamp := m.timestamp, sender := m.sender,
    type := m.type, payload := m.payload }

/-- Model of `Message.sign()`: keyed hash of the signed fields. -/
def msgSign {σ : Type} (hmac : SignedFields → σ) (m : Msg σ) : σ :=
  hmac (signedFields m)

/-- Model of `Message.verify()`: the stored signature equals the recomputed hash. -/
def msgVerify {σ : Type} [DecidableEq σ] (hmac : SignedFields → σ) (m : Msg σ) : Bool :=
  decide (m.signature = msgSign hmac m)

/-- The `Message` constructor: fields are stored and the signature is set
to the keyed hash of the signed fields.  `freshId` and `freshTimestamp`
stand for `crypto.randomUUID()` and the construction-time clock reading;
`priority` defaults to `3` and `ttl` to `300` at every call site that
omits them. -/
def mkMessage {σ : Type} (hmac : SignedFields → σ) (freshId : String) (freshTimestamp : Nat)
    (sender : String) (recipients : Recipients) (type : String) (payload : String)
    (priority : Nat) (ttl : Nat) : Msg σ :=
  { id := freshId, timestamp := freshTimestamp, sender := sender,
    recipients := recipients, type := type, payload := payload,
    priority := priority, ttl := ttl,
    signature := hmac { id := freshId, timestamp := freshTimestamp, sender := sender,
                        type := type, payload := payload } }

/-! ## Task routing (`SwarmOrchestrator.selectArchitecture`) -/

/-- The fields of a task that `selectArchitecture` consults: its `type`
string, the requested `amount` (financial approvals) and the `severity`
(alerts).  Absent fields are `none` / `0` as appropriate. -/
structure RoutedTask where
  type : String
  amount : ℚ
  severity : Option String
deriving DecidableEq, Repr

/-- The property names every plain object literal inherits from
`Object.prototype` (Node/V8).  `patterns` in `selectArchitecture` is a
plain object, so `patterns[task.type]` for one of these names walks the
prototype chain and yields the inherited member — a truthy function (or,
for `__proto__`, the prototype object itself) — instead of `undefined`. -/
def objectPrototypeMembers : List String :=
  ["constructor", "hasOwnProperty", "isPrototypeOf", "propertyIsEnumerable",
   "toLocaleString", "toString", "valueOf", "__proto__",
   "__defineGetter__", "__defineSetter__", "__lookupGetter__", "__lookupSetter__"]

/-- The outcome of `selectArchitecture`.  Either an own entry of the
pattern table (or the `'default'` fallback) ran and produced a strategy
name, or the lookup hit a member inherited from `Object.prototype`: that
member is truthy, so `|| patterns['default']` does not fire and the
member itself becomes the selector — its call yields an
environment-specific non-strategy value (`'toString'` stringifies the
sloppy-mode receiver, `'constructor'` returns the task itself) or throws
(`'__proto__'` is not callable), never one of the five strategy names. -/
inductive Selected where
  | strategy (name : String)
  | prototypeMember (memberName : String)
deriving DecidableEq, Repr

/-- Model of `SwarmOrchestrator.selectArchitecture`: the pattern-table
lookup `patterns[task.type] || patterns['default']` followed by
`selector(task)`.  Own keys are checked first; a type naming an inherited
`Object.prototype` member selects that member instead of the `'default'`
entry; only a type found nowhere on the prototype chain gives `undefined`
and falls back to `'default'` (sequential). -/
def selectArchitecture (t : RoutedTask) : Selected :=
  if t.type = "financial_approval" then
    .strategy (if t.amount > 500 then "council" else "sequential")
  else if t.type = "system_alert" then
    .strategy (if t.severity = some "critical" then "emergency" else "concurrent")
  else if t.type = "customer_inquiry" then .strategy "concurrent"
  else if t.type = "strategic_planning" then .strategy "sequential"
  else if t.type = "data_processing" then .strategy "concurrent"
  else if t.type = "complex_analysis" then .strategy "competitive"
  else if t.type ∈ objectPrototypeMembers then .prototypeMember t.type
  else .strategy "sequential"

/-! ## Bus (`MessageBus` in `src/swarm/message-bus.js`)

The bus state keeps the registered agent ids, the channel table (name →
subscriber list, in insertion order) and the bounded message history.
Delivery to an agent (`record.agent.receiveMessage`) is supplied by the
`deliver` oracle: `.ok` for a successful delivery, `.error` for a thrown
processing error.  The metrics counters and event emissions are elided;
no claim mentions them. -/

structure BusState (σ : Type) where
  registeredAgents : List String
  channels : List (String × List String)
  messageHistory : List (Msg σ)
  maxHistory : Nat
deriving DecidableEq, Repr

/-- The per-recipient delivery record produced by `MessageBus.send`. -/
structure Delivery where
  recipientId : String
  status : String
  reason : Option String
deriving DecidableEq, Repr

/-- Recipient resolution in `MessageBus.send`: the literal `'broadcast'`
resolves to every registered agent, an array to itself, anything else to
the one-element list. -/
def resolveRecipients {σ : Type} (s : BusState σ) (r : Recipients) : List String :=
  match r with
  | .broadcast => s.registeredAgents
  | .several ids => ids
  | .single id => [id]

/-- Model of `MessageBus.send(message)`: throws on signature-verification failure;
otherwise pushes the envelope onto the history, `shift()`s the oldest
entry if the capacity is now exceeded, resolves the recipients and
attempts delivery to each independently (a missing agent or a thrown
delivery error yields a per-recipient failure record). -/
def busSend {σ : Type} [DecidableEq σ] (hmac : SignedFields → σ)
    (deliver : String → Msg σ → Except String Unit)
    (s : BusState σ) (m : Msg σ) : Except String (BusState σ × List Delivery) :=
  if msgVerify hmac m = false then
    .error "Message signature verification failed"
  else
    let pushed := s.messageHistory ++ [m]
    let bounded := if pushed.length > s.maxHistory then pushed.drop 1 else pushed
    let recipientIds := resolveRecipients s m.recipients
    let deliveries := recipientIds.map (fun rid =>
      if rid ∈ s.registeredAgents then
        match deliver rid m with
        | .ok _ => { recipientId := rid, status := "delivered", reason := none }
        | .error e => { recipientId := rid, status := "failed", reason := some e }
      else { recipientId := rid, status := "failed", reason := some "agent_not_found" })
    .ok ({ s with messageHistory := bounded }, deliveries)

/-- Channel lookup used by `MessageBus.broadcast`: `this.channels.get(channel)`. -/
def channelSubscribers {σ : Type} (s : BusState σ) (channel : String) : Option (List String) :=
  (s.channels.find? (fun p => p.fst == channel)).map Prod.snd

instance exceptDecEq {ε α : Type} [DecidableEq ε] [DecidableEq α] :
    DecidableEq (Except ε α) := fun x y =>
  match x, y with
  | .ok a, .ok b =>
    if h : a = b then .isTrue (by rw [h])
    else .isFalse (fun hh => h (Except.ok.inj hh))
  | .error a, .error b =>
    if h : a = b then .isTrue (by rw [h])
    else .isFalse (fun hh => h (Except.error.inj hh))
  | .ok _, .error _ => .isFalse (fun hh => Except.noConfusion hh)
  | .error _, .ok _ => .isFalse (fun hh => Except.noConfusion hh)

/-- The outcome of `MessageBus.broadcast`: either the early
`{status, channel}` return (no envelope built, `send` not invoked), or
the constructed envelope together with the delegated `send` result. -/
inductive BroadcastOutcome (σ : Type) where
  | noSubscribers (status : String) (channel : String)
  | sent (envelope : Msg σ) (sendResult : Except String (BusState σ × List Delivery))
deriving DecidableEq, Repr

/-- Model of `MessageBus.broadcast(channel, messageData)`: a missing channel or an
empty subscriber set returns `{status:'no_subscribers', channel}` at once;
otherwise a `Message` is constructed with the current subscribers as its
recipients and handed to `send`. -/
def busBroadcast {σ : Type} [DecidableEq σ] (hmac : SignedFields → σ)
    (deliver : String → Msg σ → Except String Unit)
    (s : BusState σ) (freshId : String) (freshTimestamp : Nat)
    (channel : String) (sender : String) (type : String) (payload : String) :
    BroadcastOutcome σ :=
  match channelSubscribers s channel with
  | none => .noSubscribers "no_subscribers" channel
  | some subscribers =>
    if subscribers.isEmpty then
      .noSubscribers "no_subscribers" channel
    else
      let envelope := mkMessage hmac freshId freshTimestamp sender
        (.several subscribers) type payload 3 300
      .sent envelope (busSend hmac deliver s envelope)

/-- The expiry test of `MessageBus.cleanup`:
`new Date(msg.timestamp).getTime() + msg.ttl * 1000 < Date.now()`
(timestamps in milliseconds, `ttl` in seconds). -/
def entryExpired {σ : Type} (m : Msg σ) (now : Nat) : Bool :=
  decide (m.timestamp + m.ttl * 1000 < now)

/-- Model of `MessageBus.cleanup()`: the history is filtered down to the entries
that are not ttl-expired at the current time. -/
def busCleanup {σ : Type} (s : BusState σ) (now : Nat) : BusState σ :=
  { s with messageHistory := s.messageHistory.filter (fun m => !entryExpired m now) }

/-- Model of `new MessageBus(options)`: empty registry, channel table and
history; the capacity is `options.maxHistory || 10000`, so an absent (or
zero) option falls back to the default 10 000. -/
def mkMessageBus (σ : Type) (maxHistoryOption : Option Nat) : BusState σ :=
  { registeredAgents := [], channels := [], messageHistory := [],
    maxHistory :=
      match maxHistoryOption with
      | none => 10000
      | some v => if v = 0 then 10000 else v }

/-! ## Agent scoring (`SwarmOrchestrator.calculateAgentScore`) -/

/-- JavaScript `x || d` on a numeric value: `undefined` (absent) and `0`
are both falsy, so both yield the default.  Used for
`agent.metrics?.successRate || 0.8`, `result.result.quality || 0.5` and
`result.result.confidence || 0.5`. -/
def jsOrQ (x : Option ℚ) (d : ℚ) : ℚ :=
  match x with
  | none => d
  | some v => if v = 0 then d else v

/-- The agent fields `calculateAgentScore` consults. -/
structure AgentInfo where
  skills : List String
  status : String
  successRate : Option ℚ
  role : String
deriving DecidableEq, Repr

/-- The task fields `calculateAgentScore` consults. -/
structure ScoredTask where
  requiredSkills : Option (List String)
  preferredRole : Option String
deriving DecidableEq, Repr

/-- Model of `SwarmOrchestrator.calculateAgentScore`: skill overlap weighted 0.4
(flat 0.2 when the task names no required skills), availability 0.3 when
idle else 0.1, success rate weighted 0.2 (`|| 0.8`), and a 0.1 bonus when
the agent's role equals the task's preferred role. -/
def calculateAgentScore (agent : AgentInfo) (task : ScoredTask) : ℚ :=
  let skillScore : ℚ :=
    match task.requiredSkills with
    | some req =>
      ((agent.skills.filter (fun s => req.contains s)).length : ℚ) / (req.length : ℚ) * (4/10)
    | none => 2/10
  let availability : ℚ := if agent.status = "idle" then 3/10 else 1/10
  let history : ℚ := jsOrQ agent.successRate (8/10) * (2/10)
  let roleBonus : ℚ :=
    match task.preferredRole with
    | some r => if agent.role = r then 1/10 else 0
    | none => 0
  skillScore + availability + history + roleBonus

/-! ## Strategy-level query oracles

Every strategy issues its per-agent exchanges through `BaseAgent.query`.
A branch's outcome (the value a fulfilled promise would carry, or the
rejection) is supplied by an oracle function, so the strategy theorems
quantify over every possible pattern of replies and failures. -/

/-- An agent as a strategy sees it: its id and codename. -/
structure AgentRef where
  id : String
  codename : String
deriving DecidableEq, Repr

/-! ## Council strategy (`CouncilArchitecture`) -/

/-- The reply payload `gatherVote` destructures: `deliberation.vote` and
`deliberation.reasoning`, either of which may be absent. -/
structure Deliberation where
  vote : Option String
  reasoning : Option String
deriving DecidableEq, Repr

/-- JavaScript `s || d` on a string: `undefined` and the empty string are
falsy. -/
def jsOrStr (x : Option String) (d : String) : String :=
  match x with
  | none => d
  | some s => if s = "" then d else s

/-- One recorded vote. -/
structure VoteRecord where
  agent : String
  codename : String
  vote : String
  reasoning : String
deriving DecidableEq, Repr

/-- Model of `CouncilArchitecture.gatherVote`: a fulfilled query yields the
deliberation's vote (`|| 'abstain'`) and reasoning (`|| ''`); a rejected
query is caught and recorded as an abstention. -/
def gatherVote (a : AgentRef) (outcome : Except String Deliberation) : VoteRecord :=
  match outcome with
  | .ok d =>
    { agent := a.id, codename := a.codename,
      vote := jsOrStr d.vote "abstain", reasoning := jsOrStr d.reasoning "" }
  | .error _ =>
    { agent := a.id, codename := a.codename,
      vote := "abstain", reasoning := "Failed to respond in time" }

/-- The result record of a council execution (the `proposal` and `message`
fields are determined by the task and the consensus and are elided). -/
structure CouncilResult where
  status : String
  consensus : ℚ
  votes : List VoteRecord
deriving DecidableEq, Repr

/-- Model of `CouncilArchitecture.execute`: gathers one vote per selected agent,
counts the `'approve'` votes, divides by the total number of votes
(abstains included) and approves iff the ratio is at least `0.66` — the
literal threshold in the source, whose comment reads "Require 2/3
majority". -/
def councilExecute (agents : List AgentRef)
    (oracle : String → Except String Deliberation) : CouncilResult :=
  let votes := agents.map (fun a => gatherVote a (oracle a.id))
  let approvals := (votes.filter (fun v => v.vote == "approve")).length
  let total := votes.length
  let consensus : ℚ := (approvals : ℚ) / (total : ℚ)
  let approved := consensus ≥ 66/100
  { status := if approved then "approved" else "rejected",
    consensus := consensus, votes := votes }

/-! ## Sequential strategy (`SequentialArchitecture`) -/

/-- One entry of the pipeline trace. -/
structure SeqStep (α : Type) where
  agent : String
  codename : String
  input : α
  output : α
deriving DecidableEq, Repr

/-- The result record of a completed sequential execution. -/
structure SeqResult (α : Type) where
  status : String
  finalResult : α
  trace : List (SeqStep α)
  steps : Nat
deriving DecidableEq, Repr

/-- The loop body of `SequentialArchitecture.execute`: each agent is
queried with the current input; a fulfilled query extends the trace and
becomes the next input; a rejected query throws out of `execute` (there
is no try/catch), abandoning the accumulated trace and the remaining
agents.  The step oracle maps an agent id and the step input to that
query's outcome. -/
def seqLoop {α : Type} (oracle : String → α → Except String α) :
    List AgentRef → α → List (SeqStep α) → Except String (SeqResult α)
  | [], input, trace =>
    .ok { status := "completed", finalResult := input, trace := trace, steps := trace.length }
  | a :: rest, input, trace =>
    match oracle a.id input with
    | .error e => .error e
    | .ok result =>
      seqLoop oracle rest result
        (trace ++ [{ agent := a.id, codename := a.codename, input := input, output := result }])

/-- Model of `SequentialArchitecture.execute(task, agents)`. -/
def sequentialExecute {α : Type} (oracle : String → α → Except String α)
    (agents : List AgentRef) (task : α) : Except String (SeqResult α) :=
  seqLoop oracle agents task []

/-! ## Concurrent strategy (`ConcurrentArchitecture`) -/

/-- The reply payload the concurrent and competitive strategies
destructure: optional `quality` and `confidence` numbers, an optional
`agent` id, and an opaque `data` value. -/
structure AgentReply (α : Type) where
  quality : Option ℚ
  confidence : Option ℚ
  agent : Option String
  data : α
deriving DecidableEq, Repr

/-- JavaScript `a > b` where either side may be `undefined`: any
comparison involving `undefined` is false. -/
def jsGtQ (a b : Option ℚ) : Bool :=
  match a, b with
  | some x, some y => decide (y < x)
  | _, _ => false

/-- The value of `synthesizeResults`: the highest-confidence reply
(`'best'`), the merged data/sources record (`'merge'`), or the first
fulfilled reply — `undefined` when there is none (`results[0]` of an
empty array). -/
inductive Synthesis (α : Type) where
  | reply (r : AgentReply α)
  | merged (data : List α) (sources : List (Option String))
  | undef
deriving DecidableEq, Repr

/-- Model of `ConcurrentArchitecture.synthesizeResults(results, task)`: `'best'`
reduces with `current.confidence > best.confidence` (a reduce of an empty
array with no initial value throws); `'merge'` collects the data values
and source agent ids; any other mode returns `results[0]`. -/
def synthesizeResults {α : Type} (results : List (AgentReply α))
    (synthesisType : Option String) : Except String (Synthesis α) :=
  if synthesisType = some "best" then
    match results with
    | [] => .error "Reduce of empty array with no initial value"
    | r :: rs =>
      .ok (.reply (rs.foldl (fun best current =>
        if jsGtQ current.confidence best.confidence then current else best) r))
  else if synthesisType = some "merge" then
    .ok (.merged (results.map (fun r => r.data)) (results.map (fun r => r.agent)))
  else
    .ok (match results with | [] => .undef | r :: _ => .reply r)

/-- The result record of a concurrent execution. -/
structure ConcurrentResult (α : Type) where
  status : String
  results : List (AgentReply α)
  failures : List String
  synthesis : Synthesis α
  agents : List String
deriving DecidableEq, Repr

/-- Model of `ConcurrentArchitecture.execute(task, agents)`: every branch is
issued and `Promise.allSettled` retains each branch's own outcome, so the
fulfilled values and the rejection reasons are collected independently;
the status is `'success'` exactly when no branch failed.  The branch
oracle maps an agent id to its query outcome. -/
def concurrentExecute {α : Type} (oracle : String → Except String (AgentReply α))
    (agents : List AgentRef) (synthesisType : Option String) :
    Except String (ConcurrentResult α) :=
  let settled := agents.map (fun a => oracle a.id)
  let successful := settled.filterMap (fun r =>
    match r with | .ok v => some v | .error _ => none)
  let failed := settled.filterMap (fun r =>
    match r with | .ok _ => none | .error e => some e)
  match synthesizeResults successful synthesisType with
  | .error e => .error e
  | .ok synthesis =>
    .ok { status := if failed.length = 0 then "success" else "partial",
          results := successful, failures := failed,
          synthesis := synthesis, agents := agents.map (fun a => a.id) }

/-! ## Competitive strategy (`CompetitiveArchitecture`) -/

/-- The record `compete` builds for one branch: the reply plus the
branch's wall-clock execution time in milliseconds. -/
structure CompeteEntry (α : Type) where
  agent : String
  codename : String
  result : AgentReply α
  executionTime : Nat
deriving DecidableEq, Repr

/-- Model of `CompetitiveArchitecture.compete(agent, task)`: a fulfilled query
yields the timed entry; a rejected query rejects the branch (no
try/catch).  The `timing` oracle supplies the measured duration. -/
def compete {α : Type} (oracle : String → Except String (AgentReply α))
    (timing : String → Nat) (a : AgentRef) : Except String (CompeteEntry α) :=
  match oracle a.id with
  | .error e => .error e
  | .ok r =>
    .ok { agent := a.id, codename := a.codename, result := r, executionTime := timing a.id }

/-- Model of `CompetitiveArchitecture.evaluateResult`: quality 60%
(`|| 0.5`), speed 30% (`max(0, 1 − executionTime/30000)`), confidence 10%
(`|| 0.5`). -/
def evaluateResult {α : Type} (e : CompeteEntry α) : ℚ :=
  jsOrQ e.result.quality (1/2) * (6/10)
    + max 0 (1 - (e.executionTime : ℚ) / 30000) * (3/10)
    + jsOrQ e.result.confidence (1/2) * (1/10)

/-- A scored competitive entry (`{...result, score}`). -/
structure ScoredEntry (α : Type) where
  entry : CompeteEntry α
  score : ℚ
deriving DecidableEq, Repr

/-- The result record of a competitive execution. -/
structure CompetitiveResult (α : Type) where
  status : String
  winner : ScoredEntry α
  allResults : List (ScoredEntry α)
deriving DecidableEq, Repr

/-- The `Promise.all` over the competitive branches: every branch's entry
when all fulfil, otherwise the rejection of the earliest (in selection
order) failed branch. -/
def collectBranches {α : Type} (oracle : String → Except String (AgentReply α))
    (timing : String → Nat) : List AgentRef → Except String (List (CompeteEntry α))
  | [] => .ok []
  | a :: rest =>
    match compete oracle timing a with
    | .error e => .error e
    | .ok entry =>
      match collectBranches oracle timing rest with
      | .error e => .error e
      | .ok entries => .ok (entry :: entries)

/-- Model of `CompetitiveArchitecture.execute(task, agents)`: the branches run
under `Promise.all`, so one rejected branch rejects the whole execution;
otherwise every entry is scored and the winner is chosen by `reduce` with
a strict comparison (ties keep the earlier entry; a reduce over zero
agents throws). -/
def competitiveExecute {α : Type} (oracle : String → Except String (AgentReply α))
    (timing : String → Nat) (agents : List AgentRef) :
    Except String (CompetitiveResult α) :=
  match collectBranches oracle timing agents with
  | .error e => .error e
  | .ok results =>
    let scored := results.map (fun r => { entry := r, score := evaluateResult r : ScoredEntry α })
    match scored with
    | [] => .error "Reduce of empty array with no initial value"
    | s :: ss =>
      let winner := ss.foldl (fun best current =>
        if best.score < current.score then current else best) s
      .ok { status := "completed", winner := winner, allResults := scored }

/-! ## The request/response helper (`BaseAgent.query`)

`query(targetAgent, query, timeout)` returns
`new Promise(async (resolve, reject) => { ... })` whose executor computes
a query id, schedules `reject(new Error(...))` after `timeout`
milliseconds, and awaits `this.send(...)`.  The executor is embedded as
the list of promise-relevant actions it performs, in order; `resolve` is
never invoked by any of them. -/

/-- A settlement of the promise: fulfilment with a reply value, or
rejection with an error message. -/
inductive Settlement where
  | fulfil (value : String)
  | rejectWith (err : String)
deriving DecidableEq, Repr

/-- One action of the promise executor that can affect the promise or the
outside world: scheduling a deferred settlement, settling immediately, or
sending an envelope. -/
inductive ExecutorAction where
  | schedule (delayMs : Nat) (onFire : Settlement)
  | settleNow (s : Settlement)
  | sendEnvelope (target : String) (queryId : String)
deriving DecidableEq, Repr

/-- The rejection message built by the timeout callback. -/
def timeoutMessage (targetAgent : String) (timeout : Nat) : String :=
  "Query to " ++ targetAgent ++ " timed out after " ++ toString timeout ++ "ms"

/-- The body of `BaseAgent.query`'s promise executor: build the query id
(`this.id + '-' + Date.now()`), schedule the timeout rejection, send the
query envelope.  No action fulfils the promise. -/
def queryExecutor (selfId targetAgent : String) (now : Nat) (timeout : Nat) :
    List ExecutorAction :=
  [ .schedule timeout (.rejectWith (timeoutMessage targetAgent timeout)),
    .sendEnvelope targetAgent (selfId ++ "-" ++ toString now) ]

/-- The settlements an action list can ever apply to the promise. -/
def settlementsOf (actions : List ExecutorAction) : List Settlement :=
  actions.filterMap (fun a =>
    match a with
    | .schedule _ s => some s
    | .settleNow s => some s
    | .sendEnvelope _ _ => none)

/-! ## Concrete executions used by counterexamples and witnesses -/

/-- The 50 council members of the failing council execution: 33 backers
and 17 opponents. -/
def c1Agents : List AgentRef :=
  List.replicate 33 ⟨"backer", "The Backer"⟩ ++ List.replicate 17 ⟨"opponent", "The Opponent"⟩

/-- The vote oracle of the failing council execution: every backer
approves, every opponent rejects, nobody abstains. -/
def c1Oracle : String → Except String Deliberation := fun aid =>
  if aid = "backer" then
    .ok { vote := some "approve", reasoning := some "yes" }
  else
    .ok { vote := some "reject", reasoning := some "no" }

/-- A step oracle for the failing sequential execution: agent `"a"`
increments its input, every other agent throws. -/
def c2Oracle : String → Nat → Except String Nat := fun aid input =>
  if aid = "a" then .ok (input + 1) else .error "boom"

/-- The pipeline of the failing sequential execution: the second step
fails, the third is never reached. -/
def c2Agents : List AgentRef := [⟨"a", "A"⟩, ⟨"b", "B"⟩, ⟨"c", "C"⟩]

/-- A step oracle where only agent `"fail"` throws. -/
def c2wOracle : String → Nat → Except String Nat := fun aid input =>
  if aid = "fail" then .error "step down" else .ok (input * 2)

/-- A branch oracle for the failing competitive execution: agent
`"alpha"` fulfils, every other branch rejects. -/
def c3Oracle : String → Except String (AgentReply Nat) := fun aid =>
  if aid = "alpha" then
    .ok { quality := some (9/10), confidence := some (8/10), agent := some "alpha", data := 1 }
  else .error "branch failed"

/-- A branch oracle where only agent `"h"` rejects. -/
def c3wOracle : String → Except String (AgentReply Nat) := fun aid =>
  if aid = "h" then .error "down"
  else .ok { quality := some (1/2), confidence := some (1/2), agent := some aid, data := 7 }

/-- A constant branch-duration oracle. -/
def c3Timing : String → Nat := fun _ => 1000

/-- A keyed hash kept as the identity on the signed fields (injective,
hence collision-free). -/
def c7Hmac : SignedFields → SignedFields := id

/-- A concrete envelope signed with `c7Hmac`. -/
def c7Msg : Msg SignedFields :=
  mkMessage c7Hmac "msg-1" 1700000000000 "winston" (.single "doctor") "query" "ping" 2 300

/-- A degenerate keyed hash into `Unit` (every envelope verifies), used
where signatures are not the point. -/
def c8Hmac : SignedFields → Unit := fun _ => ()

/-- A delivery oracle that always succeeds. -/
def c8Deliver : String → Msg Unit → Except String Unit := fun _ _ => .ok ()

def c8Msg1 : Msg Unit := mkMessage c8Hmac "m1" 1000 "winston" (.single "doctor") "command" "p1" 3 300

def c8Msg2 : Msg Unit := mkMessage c8Hmac "m2" 2000 "winston" (.single "doctor") "command" "p2" 3 300

def c8Msg3 : Msg Unit := mkMessage c8Hmac "m3" 3000 "winston" (.single "doctor") "command" "p3" 3 300

/-- A bus whose two-entry history is exactly at its capacity of two. -/
def c8Bus : BusState Unit :=
  { registeredAgents := ["doctor"], channels := [],
    messageHistory := [c8Msg1, c8Msg2], maxHistory := 2 }

/-- A bus with a populated channel, an empty channel, and an envelope
history containing one expired and one fresh entry (for a current time of
500 000 ms: `c8Msg1` expired at 301 000, `c9FreshMsg` expires at
1 300 000). -/
def c9FreshMsg : Msg Unit :=
  mkMessage c8Hmac "m9" 1000000 "winston" (.single "doctor") "report" "p9" 3 300

def c9Bus : BusState Unit :=
  { registeredAgents := ["winston", "doctor"],
    channels := [("council", ["winston", "doctor"]), ("empty-channel", [])],
    messageHistory := [c8Msg1, c9FreshMsg], maxHistory := 10000 }

/-! ## Theorems -/

/-- C1: the consensus ratio is the number of `'approve'` votes over the
total number of votes cast, but the approval test in the source is
`consensus >= 0.66`, not `>= 2/3` as the spec (and the source's own
comment "Require 2/3 majority") state: a council execution in which 33 of
50 votes approve has ratio 33/50 = 0.66 < 2/3, yet the code reports
`status = 'approved'`. -/
theorem council_approves_below_two_thirds :
    (councilExecute c1Agents c1Oracle).status = "approved"
    ∧ (councilExecute c1Agents c1Oracle).consensus = 33/50
    ∧ ((33 : ℚ)/50 < 2/3) := by
  have hv : ((c1Agents.map (fun a => gatherVote a (c1Oracle a.id))).filter
      (fun v => v.vote == "approve")).length = 33 := by decide
  have ht : (c1Agents.map (fun a => gatherVote a (c1Oracle a.id))).length = 50 := by decide
  refine ⟨?_, ?_, by norm_num⟩
  · simp only [councilExecute, hv, ht]
    norm_num
  · simp only [councilExecute, hv, ht]
    norm_num

/-- Counterexample to C5: the task type `"toString"` matches no rule of
the pattern table, yet it does not map to `'sequential'` — the plain
object lookup finds the truthy `Object.prototype.toString` on the
prototype chain, so the `'default'` selector is never consulted and no
strategy name is produced. -/
theorem prototype_member_type_not_sequential :
    selectArchitecture { type := "toString", amount := 0, severity := none }
      = Selected.prototypeMember "toString"
    ∧ selectArchitecture { type := "toString", amount := 0, severity := none }
      ≠ Selected.strategy "sequential" :=
  ⟨rfl, by decide⟩

/-- C5 (amended): `selectArchitecture` is deterministic in the task (a
pure function); `financial_approval` routes to council exactly when the
amount exceeds 500 and to sequential otherwise; `system_alert` routes to
emergency exactly when the severity is critical and to concurrent
otherwise; a type matching no own entry of the pattern table maps to
sequential only if it also names no member inherited from
`Object.prototype` — a type naming such a member (`toString`,
`constructor`, `__proto__`, …) selects that inherited member instead of
the default, producing no strategy name. -/
theorem selectArchitecture_rule_table (t : RoutedTask) :
    (t.type = "financial_approval" →
      selectArchitecture t = .strategy (if t.amount > 500 then "council" else "sequential"))
    ∧ (t.type = "system_alert" →
      selectArchitecture t
        = .strategy (if t.severity = some "critical" then "emergency" else "concurrent"))
    ∧ (t.type ∉ ["financial_approval", "system_alert", "customer_inquiry",
        "strategic_planning", "data_processing", "complex_analysis"] →
      t.type ∉ objectPrototypeMembers →
      selectArchitecture t = .strategy "sequential")
    ∧ (t.type ∉ ["financial_approval", "system_alert", "customer_inquiry",
        "strategic_planning", "data_processing", "complex_analysis"] →
      t.type ∈ objectPrototypeMembers →
      selectArchitecture t = .prototypeMember t.type) := by
  refine ⟨?_, ?_, ?_, ?_⟩
  · intro h
    simp [selectArchitecture, h]
  · intro h
    simp [selectArchitecture, h]
  · intro h hp
    simp only [List.mem_cons, List.not_mem_nil, or_false, not_or] at h
    obtain ⟨h1, h2, h3, h4, h5, h6⟩ := h
    simp [selectArchitecture, h1, h2, h3, h4, h5, h6, hp]
  · intro h hp
    simp only [List.mem_cons, List.not_mem_nil, or_false, not_or] at h
    obtain ⟨h1, h2, h3, h4, h5, h6⟩ := h
    simp [selectArchitecture, h1, h2, h3, h4, h5, h6, hp]

/-- Witness for C5 (amended): the rule table evaluated on the spec's
scenarios (amount 2500 → council, amount 50 → sequential, critical alert
→ emergency, non-critical alert → concurrent, a type found nowhere →
sequential) and on the inherited member name `valueOf`, which produces no
strategy. -/
theorem selectArchitecture_rule_table_checks :
    selectArchitecture { type := "financial_approval", amount := 2500, severity := none }
      = Selected.strategy "council"
    ∧ selectArchitecture { type := "financial_approval", amount := 50, severity := none }
      = Selected.strategy "sequential"
    ∧ selectArchitecture { type := "system_alert", amount := 0, severity := some "critical" }
      = Selected.strategy "emergency"
    ∧ selectArchitecture { type := "system_alert", amount := 0, severity := some "warning" }
      = Selected.strategy "concurrent"
    ∧ selectArchitecture { type := "unknown_type", amount := 0, severity := none }
      = Selected.strategy "sequential"
    ∧ selectArchitecture { type := "valueOf", amount := 0, severity := none }
      = Selected.prototypeMember "valueOf" := by
  refine ⟨?_, ?_, ?_, ?_, ?_, ?_⟩
  · have h := (selectArchitecture_rule_table ⟨"financial_approval", 2500, none⟩).1 rfl
    rwa [if_pos (by norm_num)] at h
  · have h := (selectArchitecture_rule_table ⟨"financial_approval", 50, none⟩).1 rfl
    rwa [if_neg (by norm_num)] at h
  · have h := (selectArchitecture_rule_table ⟨"system_alert", 0, some "critical"⟩).2.1 rfl
    rwa [if_pos rfl] at h
  · have h := (selectArchitecture_rule_table ⟨"system_alert", 0, some "warning"⟩).2.1 rfl
    rwa [if_neg (by decide)] at h
  · exact (selectArchitecture_rule_table ⟨"unknown_type", 0, none⟩).2.2.1 (by decide) (by decide)
  · exact (selectArchitecture_rule_table ⟨"valueOf", 0, none⟩).2.2.2 (by decide) (by decide)

/-- C6: the promise returned by `BaseAgent.query` is never fulfilled —
the executor performs exactly one settlement action, the scheduled
rejection with the timeout error, and schedules it `timeout` milliseconds
out; no action calls `resolve`, so a reply can never fulfil the
promise. -/
theorem query_only_settlement_is_timeout (selfId targetAgent : String) (now timeout : Nat) :
    settlementsOf (queryExecutor selfId targetAgent now timeout)
      = [Settlement.rejectWith (timeoutMessage targetAgent timeout)]
    ∧ (queryExecutor selfId targetAgent now timeout).head? =
        some (.schedule timeout (.rejectWith (timeoutMessage targetAgent timeout))) :=
  ⟨rfl, rfl⟩

/-- Splitting the sequential pipeline: running `xs ++ ys` either fails
inside `xs` with that error, or finishes `xs` and continues `ys` from its
final value and accumulated trace. -/
theorem seqLoop_append {α : Type} (oracle : String → α → Except String α)
    (xs : List AgentRef) :
    ∀ (ys : List AgentRef) (input : α) (trace : List (SeqStep α)),
      seqLoop oracle (xs ++ ys) input trace =
        match seqLoop oracle xs input trace with
        | .error e => .error e
        | .ok r => seqLoop oracle ys r.finalResult r.trace := by
  induction xs with
  | nil => intro ys input trace; rfl
  | cons a rest ih =>
    intro ys input trace
    simp only [List.cons_append, seqLoop]
    cases oracle a.id input with
    | error e => rfl
    | ok result => exact ih ys result _

/-- Counterexample to C2: in the three-step pipeline `c2Agents` the
second step rejects, and `SequentialArchitecture.execute` (which has no
try/catch) propagates the exception to the caller — no result carrying
the partial trace is returned. -/
theorem sequential_failure_returns_no_result :
    sequentialExecute c2Oracle c2Agents 0 = Except.error "boom"
    ∧ (sequentialExecute c2Oracle c2Agents 0).isOk = false := by
  exact ⟨by decide, by decide⟩

/-- C2 (amended): when a pipeline step's agent invocation fails, the
remaining steps are not executed — the result is the failing step's
error, whatever agents follow — and the exception propagates to the
caller instead of a result carrying the partial trace. -/
theorem sequential_failure_aborts_and_throws {α : Type}
    (oracle : String → α → Except String α)
    (pre : List AgentRef) (a : AgentRef) (rest : List AgentRef)
    (task : α) (res : SeqResult α) (e : String)
    (hpre : sequentialExecute oracle pre task = .ok res)
    (hfail : oracle a.id res.finalResult = .error e) :
    sequentialExecute oracle (pre ++ a :: rest) task = .error e := by
  have hsplit := seqLoop_append oracle pre (a :: rest) task []
  unfold sequentialExecute at hpre ⊢
  rw [hsplit, hpre]
  show seqLoop oracle (a :: rest) res.finalResult res.trace = Except.error e
  simp only [seqLoop, hfail]

/-- Witness for C2: a pipeline whose second step fails aborts with that
step's error, with a step after the failure present but never run. -/
theorem sequential_failure_aborts_and_throws_check :
    sequentialExecute c2wOracle [⟨"d", "D"⟩, ⟨"fail", "F"⟩, ⟨"e", "E"⟩] 3
      = Except.error "step down" := by
  have h := sequential_failure_aborts_and_throws c2wOracle [⟨"d", "D"⟩] ⟨"fail", "F"⟩
      [⟨"e", "E"⟩] 3
      { status := "completed", finalResult := 6,
        trace := [{ agent := "d", codename := "D", input := 3, output := 6 }], steps := 1 }
      "step down" (by decide) (by decide)
  simpa using h

/-- One rejected branch rejects the whole `Promise.all` of the
competitive strategy: with every branch before `b` fulfilled and `b`
rejected, `collectBranches` rejects with `b`'s error whatever branches
follow. -/
theorem collectBranches_error {α : Type} (oracle : String → Except String (AgentReply α))
    (timing : String → Nat) (b : AgentRef) (e : String)
    (hfail : oracle b.id = .error e) :
    ∀ (pre : List AgentRef), (∀ c ∈ pre, (oracle c.id).isOk = true) →
      ∀ (rest : List AgentRef),
        collectBranches oracle timing (pre ++ b :: rest) = .error e := by
  intro pre
  induction pre with
  | nil =>
    intro _ rest
    simp only [List.nil_append, collectBranches, compete, hfail]
  | cons c cs ih =>
    intro hpre rest
    have hok := hpre c (List.mem_cons_self c cs)
    have hrest := ih (fun d hd => hpre d (List.mem_cons_of_mem c hd)) rest
    obtain ⟨v, hv⟩ : ∃ v, oracle c.id = Except.ok v := by
      cases hc : oracle c.id with
      | ok v => exact ⟨v, rfl⟩
      | error e2 => rw [hc] at hok; simp [Except.isOk, Except.toBool] at hok
    rw [List.cons_append]
    unfold collectBranches compete
    rw [hv, hrest]

/-- Counterexample to C3: a competitive execution whose first branch
fulfils and whose second branch rejects returns no result at all — the
`Promise.all` rejects the whole execution, so the fulfilled sibling's
outcome is not reported. -/
theorem competitive_branch_failure_rejects_all :
    competitiveExecute c3Oracle c3Timing [⟨"alpha", "A"⟩, ⟨"beta", "B"⟩]
      = Except.error "branch failed"
    ∧ (c3Oracle "alpha").isOk = true :=
  ⟨by decide, by decide⟩

/-- C3 (amended): failure isolation holds for the concurrent strategy —
`Promise.allSettled` keeps each branch's own outcome, so whenever at
least one branch fulfils or the synthesis mode is not `'best'` the result
lists exactly the fulfilled branches' replies and the failed branches'
errors, with `'success'` iff no branch failed — but not for the
competitive strategy, whose `Promise.all` rejects the whole execution
with the first failed branch's error even when sibling branches
fulfilled. -/
theorem fanout_isolation {α : Type}
    (oracle : String → Except String (AgentReply α)) (timing : String → Nat)
    (synthesisType : Option String) (agents : List AgentRef)
    (pre : List AgentRef) (b : AgentRef) (rest : List AgentRef) (e : String)
    (hmode : synthesisType ≠ some "best" ∨
      (agents.map (fun a => oracle a.id)).any (fun r => r.isOk) = true)
    (hpre : ∀ c ∈ pre, (oracle c.id).isOk = true)
    (hfail : oracle b.id = .error e) :
    (∃ res : ConcurrentResult α,
      concurrentExecute oracle agents synthesisType = Except.ok res
      ∧ res.results = (agents.map (fun a => oracle a.id)).filterMap (fun r =>
          match r with | .ok v => some v | .error _ => none)
      ∧ res.failures = (agents.map (fun a => oracle a.id)).filterMap (fun r =>
          match r with | .ok _ => none | .error err => some err)
      ∧ res.status = (if res.failures.length = 0 then "success" else "partial"))
    ∧ competitiveExecute oracle timing (pre ++ b :: rest) = Except.error e := by
  constructor
  · have hsynth : ∃ syn, synthesizeResults
        ((agents.map (fun a => oracle a.id)).filterMap (fun r =>
          match r with | .ok v => some v | .error _ => none)) synthesisType
        = Except.ok syn := by
      by_cases hb : synthesisType = some "best"
      · have hany : (agents.map (fun a => oracle a.id)).any (fun r => r.isOk) = true :=
          hmode.resolve_left (by simp [hb])
        obtain ⟨r, hrmem, hrok⟩ := by simpa using List.any_eq_true.mp hany
        obtain ⟨v, hv⟩ : ∃ v, oracle r.id = Except.ok v := by
          cases hc : oracle r.id with
          | ok v => exact ⟨v, rfl⟩
          | error e2 => rw [hc] at hrok; simp [Except.isOk, Except.toBool] at hrok
        have hvmem : v ∈ (agents.map (fun a => oracle a.id)).filterMap (fun r =>
            match r with | .ok v => some v | .error _ => none) :=
          List.mem_filterMap.mpr ⟨oracle r.id, List.mem_map_of_mem _ hrmem, by rw [hv]⟩
        unfold synthesizeResults
        rw [if_pos hb]
        cases hl : (agents.map (fun a => oracle a.id)).filterMap (fun r =>
            match r with | .ok v => some v | .error _ => none) with
        | nil => rw [hl] at hvmem; simp at hvmem
        | cons r0 rs => exact ⟨_, rfl⟩
      · unfold synthesizeResults
        rw [if_neg hb]
        by_cases hm : synthesisType = some "merge"
        · rw [if_pos hm]; exact ⟨_, rfl⟩
        · rw [if_neg hm]; exact ⟨_, rfl⟩
    obtain ⟨syn, hs⟩ := hsynth
    have hexec : concurrentExecute oracle agents synthesisType = Except.ok
        { status := if ((agents.map (fun a => oracle a.id)).filterMap (fun r =>
              match r with | .ok _ => none | .error err => some err)).length = 0
            then "success" else "partial",
          results := (agents.map (fun a => oracle a.id)).filterMap (fun r =>
            match r with | .ok v => some v | .error _ => none),
          failures := (agents.map (fun a => oracle a.id)).filterMap (fun r =>
            match r with | .ok _ => none | .error err => some err),
          synthesis := syn,
          agents := agents.map (fun a => a.id) } := by
      simp only [concurrentExecute]
      rw [hs]
    exact ⟨_, hexec, rfl, rfl, rfl⟩
  · simp only [competitiveExecute, collectBranches_error oracle timing b e hfail pre hpre rest]

/-- Witness for C3: a competitive execution with a fulfilled first branch
and a rejected second branch rejects as a whole with the second branch's
error. -/
theorem fanout_isolation_check :
    competitiveExecute c3wOracle c3Timing [⟨"g", "G"⟩, ⟨"h", "H"⟩] = Except.error "down" := by
  have h := (fanout_isolation c3wOracle c3Timing none [⟨"g", "G"⟩, ⟨"h", "H"⟩]
      [⟨"g", "G"⟩] ⟨"h", "H"⟩ [] "down"
      (Or.inl (by decide)) (by decide) (by decide)).2
  simpa using h

/-- Counterexample to C4: two agents identical except for the recorded
success rate.  The rate-0 agent is treated by `|| 0.8` as having no
history and is scored with the default 0.8, so the agent with the
strictly higher recorded rate 0.1 scores strictly lower. -/
theorem higher_success_rate_scores_lower :
    (0 : ℚ) < 1/10
    ∧ calculateAgentScore
        { skills := [], status := "idle", successRate := some (1/10), role := "CTO" }
        { requiredSkills := none, preferredRole := none }
      < calculateAgentScore
        { skills := [], status := "idle", successRate := some 0, role := "CTO" }
        { requiredSkills := none, preferredRole := none } := by
  constructor
  · norm_num
  · norm_num [calculateAgentScore, jsOrQ]

/-- C4 (amended): `calculateAgentScore` is monotonically non-decreasing
in the skill-overlap count, in idle-versus-anything availability, and —
restricted to strictly positive recorded rates — in the success rate; a
recorded rate of exactly 0 is falsy under `|| 0.8` and is replaced by the
default 0.8, so monotonicity in the success rate does not extend to
rate 0. -/
theorem calculateAgentScore_monotone
    (a : AgentInfo) (t : ScoredTask) (skills1 skills2 : List String)
    (otherStatus : String) (r1 r2 : ℚ) :
    ((∀ req, t.requiredSkills = some req →
        ((skills1.filter (fun s => req.contains s)).length
          ≤ (skills2.filter (fun s => req.contains s)).length)) →
      calculateAgentScore { a with skills := skills1 } t
        ≤ calculateAgentScore { a with skills := skills2 } t)
    ∧ calculateAgentScore { a with status := otherStatus } t
        ≤ calculateAgentScore { a with status := "idle" } t
    ∧ (0 < r1 → r1 ≤ r2 →
      calculateAgentScore { a with successRate := some r1 } t
        ≤ calculateAgentScore { a with successRate := some r2 } t) := by
  refine ⟨?_, ?_, ?_⟩
  · intro hk
    rcases hreq : t.requiredSkills with _ | req
    · simp [calculateAgentScore, hreq]
    · have hkk := hk req hreq
      have hdiv : ((skills1.filter (fun s => req.contains s)).length : ℚ) / (req.length : ℚ)
          ≤ ((skills2.filter (fun s => req.contains s)).length : ℚ) / (req.length : ℚ) := by
        rcases Nat.eq_zero_or_pos req.length with h0 | hp
        · simp [h0]
        · have hn : (0 : ℚ) < (req.length : ℚ) := by exact_mod_cast hp
          exact (div_le_div_iff_of_pos_right hn).mpr (by exact_mod_cast hkk)
      have hmul := mul_le_mul_of_nonneg_right hdiv (by norm_num : (0:ℚ) ≤ 4/10)
      simp only [calculateAgentScore, hreq]
      gcongr
  · by_cases hs : otherStatus = "idle"
    · simp [calculateAgentScore, hs]
    · simp only [calculateAgentScore]
      gcongr
      simp only [hs, if_false, if_pos rfl]
      norm_num
  · intro h1 h2
    have hr1 : r1 ≠ 0 := ne_of_gt h1
    have hr2 : r2 ≠ 0 := ne_of_gt (lt_of_lt_of_le h1 h2)
    have hj : jsOrQ (some r1) (8/10) ≤ jsOrQ (some r2) (8/10) := by
      simp [jsOrQ, hr1, hr2, h2]
    have hmul := mul_le_mul_of_nonneg_right hj (by norm_num : (0:ℚ) ≤ 2/10)
    simp only [calculateAgentScore]
    gcongr

/-- Witness for C4 (amended): a busy agent scores no higher than the same
agent idle, and raising a positive success rate from 0.5 to 0.75 does not
lower the score. -/
theorem calculateAgentScore_monotone_check :
    calculateAgentScore
        { skills := [], status := "busy", successRate := some (1/2), role := "CTO" }
        { requiredSkills := none, preferredRole := none }
      ≤ calculateAgentScore
        { skills := [], status := "idle", successRate := some (1/2), role := "CTO" }
        { requiredSkills := none, preferredRole := none }
    ∧ calculateAgentScore
        { skills := [], status := "idle", successRate := some (1/2), role := "CTO" }
        { requiredSkills := none, preferredRole := none }
      ≤ calculateAgentScore
        { skills := [], status := "idle", successRate := some (3/4), role := "CTO" }
        { requiredSkills := none, preferredRole := none } := by
  constructor
  · exact (calculateAgentScore_monotone
      { skills := [], status := "busy", successRate := some (1/2), role := "CTO" }
      { requiredSkills := none, preferredRole := none } [] [] "busy" (1/2) (3/4)).2.1
  · exact (calculateAgentScore_monotone
      { skills := [], status := "idle", successRate := some (1/2), role := "CTO" }
      { requiredSkills := none, preferredRole := none } [] [] "busy" (1/2) (3/4)).2.2
      (by norm_num) (by norm_num)

/-- C7: `verify()` holds exactly when the stored signature equals the
keyed hash recomputed from the signed fields; a freshly constructed
envelope verifies, and — under collision resistance of the keyed hash,
modelled as injectivity — changing any one of the five signed fields
(id, timestamp, sender, type, payload) makes `verify()` false. -/
theorem envelope_verify_iff (σ : Type) [DecidableEq σ]
    (hmac : SignedFields → σ) (hinj : Function.Injective hmac)
    (freshId : String) (freshTimestamp : Nat) (sender : String) (recips : Recipients)
    (mtype payload : String) (priority ttl : Nat)
    (m m2 : Msg σ) (x : String) (n : Nat)
    (hm : m = mkMessage hmac freshId freshTimestamp sender recips mtype payload priority ttl) :
    (msgVerify hmac m2 = true ↔ m2.signature = msgSign hmac m2)
    ∧ msgVerify hmac m = true
    ∧ (x ≠ m.id → msgVerify hmac { m with id := x } = false)
    ∧ (n ≠ m.timestamp → msgVerify hmac { m with timestamp := n } = false)
    ∧ (x ≠ m.sender → msgVerify hmac { m with sender := x } = false)
    ∧ (x ≠ m.type → msgVerify hmac { m with type := x } = false)
    ∧ (x ≠ m.payload → msgVerify hmac { m with payload := x } = false) := by
  subst hm
  refine ⟨?_, ?_, ?_, ?_, ?_, ?_, ?_⟩
  · simp [msgVerify]
  · simp [msgVerify, msgSign, mkMessage, signedFields]
  · intro hne
    simp only [msgVerify, msgSign, mkMessage, signedFields, decide_eq_false_iff_not]
    intro heq
    have hfields := hinj heq
    simp only [SignedFields.mk.injEq] at hfields
    exact hne hfields.1.symm
  · intro hne
    simp only [msgVerify, msgSign, mkMessage, signedFields, decide_eq_false_iff_not]
    intro heq
    have hfields := hinj heq
    simp only [SignedFields.mk.injEq] at hfields
    exact hne hfields.2.1.symm
  · intro hne
    simp only [msgVerify, msgSign, mkMessage, signedFields, decide_eq_false_iff_not]
    intro heq
    have hfields := hinj heq
    simp only [SignedFields.mk.injEq] at hfields
    exact hne hfields.2.2.1.symm
  · intro hne
    simp only [msgVerify, msgSign, mkMessage, signedFields, decide_eq_false_iff_not]
    intro heq
    have hfields := hinj heq
    simp only [SignedFields.mk.injEq] at hfields
    exact hne hfields.2.2.2.1.symm
  · intro hne
    simp only [msgVerify, msgSign, mkMessage, signedFields, decide_eq_false_iff_not]
    intro heq
    have hfields := hinj heq
    simp only [SignedFields.mk.injEq] at hfields
    exact hne hfields.2.2.2.2.symm

/-- Witness for C7: the concrete envelope `c7Msg` verifies under the
injective keyed hash `c7Hmac`, and tampering with its sender makes
`verify()` false. -/
theorem envelope_verify_iff_check :
    msgVerify c7Hmac c7Msg = true
    ∧ msgVerify c7Hmac { c7Msg with sender := "intruder" } = false := by
  have h := envelope_verify_iff SignedFields c7Hmac (fun _ _ hh => hh)
      "msg-1" 1700000000000 "winston" (.single "doctor") "query" "ping" 2 300
      c7Msg c7Msg "intruder" 0 rfl
  exact ⟨h.2.1, h.2.2.2.2.1 (by decide)⟩

/-- C8: a successful `send` on a bus whose history is within capacity
keeps the history within capacity; when the history is exactly full it
evicts exactly the oldest retained entry (strict FIFO: the new history is
the old one minus its head, plus the new envelope at the back), when it
has room it only appends; `cleanup` also preserves the bound, and the
constructor's default capacity is 10 000. -/
theorem history_bounded_fifo (σ : Type) [DecidableEq σ]
    (hmac : SignedFields → σ) (deliver : String → Msg σ → Except String Unit)
    (s s2 : BusState σ) (m : Msg σ) (ds : List Delivery) (now : Nat)
    (hinv : s.messageHistory.length ≤ s.maxHistory)
    (hok : busSend hmac deliver s m = .ok (s2, ds)) :
    s2.messageHistory.length ≤ s.maxHistory
    ∧ s2.maxHistory = s.maxHistory
    ∧ (s.messageHistory.length = s.maxHistory → 1 ≤ s.maxHistory →
        s2.messageHistory = s.messageHistory.drop 1 ++ [m])
    ∧ (s.messageHistory.length < s.maxHistory →
        s2.messageHistory = s.messageHistory ++ [m])
    ∧ (busCleanup s now).messageHistory.length ≤ s.maxHistory
    ∧ (mkMessageBus σ none).maxHistory = 10000 := by
  have hclean : (busCleanup s now).messageHistory.length ≤ s.maxHistory :=
    le_trans (List.length_filter_le _ _) hinv
  simp only [busSend] at hok
  by_cases hv : msgVerify hmac m = false
  · rw [if_pos hv] at hok
    exact absurd hok (by simp)
  · rw [if_neg hv] at hok
    simp only [Except.ok.injEq, Prod.mk.injEq] at hok
    obtain ⟨hs2, hds⟩ := hok
    subst hs2
    refine ⟨?_, rfl, ?_, ?_, hclean, rfl⟩
    · by_cases hlen : (s.messageHistory ++ [m]).length > s.maxHistory
      · rw [if_pos hlen]
        simp only [List.length_drop, List.length_append, List.length_singleton]
        omega
      · rw [if_neg hlen]
        simp only [List.length_append, List.length_singleton] at hlen ⊢
        omega
    · intro hfull h1
      have hgt : (s.messageHistory ++ [m]).length > s.maxHistory := by
        simp only [List.length_append, List.length_singleton]
        omega
      rw [if_pos hgt]
      exact List.drop_append_of_le_length (by omega)
    · intro hroom
      have hle : ¬ (s.messageHistory ++ [m]).length > s.maxHistory := by
        simp only [List.length_append, List.length_singleton]
        omega
      rw [if_neg hle]

/-- Witness for C8: sending a third envelope to a bus whose history holds
two entries at capacity two evicts exactly the oldest entry. -/
theorem history_bounded_fifo_check :
    ({ registeredAgents := ["doctor"], channels := [],
       messageHistory := [c8Msg2, c8Msg3], maxHistory := 2 } : BusState Unit).messageHistory
      = c8Bus.messageHistory.drop 1 ++ [c8Msg3] := by
  exact (history_bounded_fifo Unit c8Hmac c8Deliver c8Bus
      { registeredAgents := ["doctor"], channels := [],
        messageHistory := [c8Msg2, c8Msg3], maxHistory := 2 }
      c8Msg3 [{ recipientId := "doctor", status := "delivered", reason := none }] 0
      (by decide) (by decide)).2.2.1 (by decide) (by decide)

/-- C9: `broadcast` on a channel that is missing or has no subscribers
returns the `{status:'no_subscribers', channel}` outcome — no envelope is
constructed and `send` is not invoked — while on a channel with at least
one subscriber it constructs an envelope addressed to exactly the current
subscriber list and delegates it to `send`. -/
theorem broadcast_no_subscribers (σ : Type) [DecidableEq σ]
    (hmac : SignedFields → σ) (deliver : String → Msg σ → Except String Unit)
    (s : BusState σ) (freshId : String) (freshTimestamp : Nat)
    (channel sender mtype payload : String) (subs : List String) :
    ((channelSubscribers s channel = none ∨ channelSubscribers s channel = some []) →
      busBroadcast hmac deliver s freshId freshTimestamp channel sender mtype payload
        = .noSubscribers "no_subscribers" channel)
    ∧ (channelSubscribers s channel = some subs → subs ≠ [] →
      busBroadcast hmac deliver s freshId freshTimestamp channel sender mtype payload
        = .sent (mkMessage hmac freshId freshTimestamp sender (.several subs) mtype payload 3 300)
            (busSend hmac deliver s
              (mkMessage hmac freshId freshTimestamp sender (.several subs) mtype payload 3 300))
      ∧ (mkMessage hmac freshId freshTimestamp sender (.several subs) mtype payload 3 300
          : Msg σ).recipients = .several subs) := by
  constructor
  · intro h
    rcases h with h | h
    · simp [busBroadcast, h]
    · simp [busBroadcast, h]
  · intro h hne
    refine ⟨?_, rfl⟩
    cases subs with
    | nil => exact absurd rfl hne
    | cons a l => simp [busBroadcast, h]

/-- Witness for C9: on `c9Bus` the unknown channel and the empty channel
both yield the no-subscribers outcome, and broadcasting on the populated
council channel delegates an envelope addressed to its two subscribers to
`send`. -/
theorem broadcast_no_subscribers_check :
    busBroadcast c8Hmac c8Deliver c9Bus "b1" 4000 "unused-channel" "winston" "broadcast" "pay"
      = .noSubscribers "no_subscribers" "unused-channel"
    ∧ busBroadcast c8Hmac c8Deliver c9Bus "b1" 4000 "empty-channel" "winston" "broadcast" "pay"
      = .noSubscribers "no_subscribers" "empty-channel"
    ∧ busBroadcast c8Hmac c8Deliver c9Bus "b1" 4000 "council" "winston" "broadcast" "pay"
      = .sent (mkMessage c8Hmac "b1" 4000 "winston" (.several ["winston", "doctor"]) "broadcast" "pay" 3 300)
          (busSend c8Hmac c8Deliver c9Bus
            (mkMessage c8Hmac "b1" 4000 "winston" (.several ["winston", "doctor"]) "broadcast" "pay" 3 300)) := by
  refine ⟨?_, ?_, ?_⟩
  · exact (broadcast_no_subscribers Unit c8Hmac c8Deliver c9Bus "b1" 4000
      "unused-channel" "winston" "broadcast" "pay" []).1 (Or.inl (by decide))
  · exact (broadcast_no_subscribers Unit c8Hmac c8Deliver c9Bus "b1" 4000
      "empty-channel" "winston" "broadcast" "pay" []).1 (Or.inr (by decide))
  · exact ((broadcast_no_subscribers Unit c8Hmac c8Deliver c9Bus "b1" 4000
      "council" "winston" "broadcast" "pay" ["winston", "doctor"]).2 (by decide) (by decide)).1

/-- C10: `cleanup()` retains exactly the history entries that are not
ttl-expired — an entry is removed iff `timestamp + ttl·1000 < now` — and
the retained entries keep their relative order; the capacity field is
untouched (eviction and expiry are independent). -/
theorem cleanup_removes_exactly_expired (σ : Type) (s : BusState σ) (now : Nat) (m : Msg σ) :
    (m ∈ (busCleanup s now).messageHistory ↔
      m ∈ s.messageHistory ∧ ¬ (m.timestamp + m.ttl * 1000 < now))
    ∧ (busCleanup s now).messageHistory.Sublist s.messageHistory
    ∧ (busCleanup s now).maxHistory = s.maxHistory := by
  refine ⟨?_, List.filter_sublist _, rfl⟩
  simp [busCleanup, List.mem_filter, entryExpired, and_comm]

/-- Witness for C10: on `c9Bus` at time 500 000 ms the envelope that
expired at 301 000 ms is removed and the fresh one is retained. -/
theorem cleanup_removes_exactly_expired_check :
    (c8Msg1 ∉ (busCleanup c9Bus 500000).messageHistory)
    ∧ c9FreshMsg ∈ (busCleanup c9Bus 500000).messageHistory := by
  constructor
  · intro hmem
    have h := (cleanup_removes_exactly_expired Unit c9Bus 500000 c8Msg1).1.mp hmem
    exact h.2 (by decide)
  · exact (cleanup_removes_exactly_expired Unit c9Bus 500000 c9FreshMsg).1.mpr
      ⟨by decide, by decide⟩

end KenyaClaw
